import Mathlib

/-!
Verification of the async TCP connect state machine of
`src/core/iomgr/tcp_client_posix.c` (and the connector contract of
`src/core/client_config/connector.h`), via a shallow embedding.

Modelling conventions:
* OS-call outcomes that the C code branches on (socket creation, the
  `grpc_set_socket_*` option calls, `connect`, `getsockopt(SO_ERROR)`)
  are inputs to the embedded functions; the `EINTR` retry loops in the C
  code are modelled by taking the post-retry outcome as the input, so an
  input errno is never `EINTR`.
* Side effects are recorded in an event trace: mutex lock/unlock,
  `grpc_fd_shutdown`, `grpc_alarm_cancel`, `grpc_pollset_set_add_fd` /
  `grpc_pollset_set_del_fd`, `grpc_fd_orphan`, `grpc_fd_notify_on_write`,
  the refcount decrements of the two resolution paths, the release of the
  attempt record (`gpr_mu_destroy` + `gpr_free(addr_str)` + `gpr_free(ac)`
  always happen together, as one `freeRecord` event), and the caller's
  completion callback `cb(cb_arg, ep)` (`invokeCb`, carrying the endpoint:
  `some f` for a transport wrapping descriptor `f`, `none` for NULL).
* `grpc_fd` handles and pollset-sets are identified by numeric ids; the
  record's `refs` field is a C `int`, modelled as `Int`.
* The dual-stack address mapping at the top of `grpc_tcp_client_connect`
  only rewrites the address passed to `connect`; it does not affect any
  control flow claimed about below and is elided.
-/

/-- Errno values (Linux). -/
def EWOULDBLOCK : Nat := 11

def ENOBUFS : Nat := 105

def ECONNREFUSED : Nat := 111

def EINPROGRESS : Nat := 115

/-- Observable side effects of the connect state machine, in program order. -/
inductive Event where
  | lock : Event
  | unlock : Event
  | detachFd : Nat → Event
  | fdShutdown : Nat → Event
  | alarmCancel : Event
  | getsockoptInspect : Event
  | notifyOnWrite : Nat → Event
  | pollsetAddFd : Nat → Event
  | pollsetDelFd : Nat → Event
  | fdOrphan : Nat → Event
  | socketClose : Nat → Event
  | fdCreate : Nat → Event
  | tcpCreate : Nat → Event
  | allocRecord : Event
  | alarmInit : Event
  | decRefAlarm : Event
  | decRefWrite : Event
  | freeRecord : Event
  | invokeCb : Option Nat → Event
  deriving DecidableEq

/-- The `async_connect` record of tcp_client_posix.c.  The callback pair
`(cb, cb_arg)` is fixed per attempt and represented by the `invokeCb`
event; the embedded alarm and write closure are represented by the
scheduler below. -/
structure async_connect where
  fd : Option Nat
  refs : Int
  interested_parties : Nat
  addr_str : String
  deriving DecidableEq

/-- Is this event an invocation of the caller's completion callback? -/
def Event.isCb : Event → Bool
  | Event.invokeCb _ => true
  | _ => false

/-- Is this event the inspection of the socket error state (`getsockopt`
with `SO_ERROR`)? -/
def Event.isInspect : Event → Bool
  | Event.getsockoptInspect => true
  | _ => false

/-- Number of occurrences of one event in a trace. -/
def countE (e : Event) (es : List Event) : Nat :=
  (es.filter (fun x => x = e)).length

/-- Number of completion-callback invocations in a trace. -/
def cbCount (es : List Event) : Nat :=
  (es.filter Event.isCb).length

/-- The endpoint arguments of the completion-callback invocations in a
trace, in order. -/
def cbArgs (es : List Event) : List (Option Nat) :=
  es.filterMap (fun e => match e with
    | Event.invokeCb o => some o
    | _ => none)

/-- Walk a trace tracking the mutex hold depth, starting from `d`:
`none` if an unlock happens while the mutex is free or the completion
callback is invoked while the mutex is held, otherwise the final depth. -/
def lockDepth : List Event → Nat → Option Nat
  | [], d => some d
  | Event.lock :: es, d => lockDepth es (d + 1)
  | Event.unlock :: es, d =>
      if d = 0 then none else lockDepth es (d - 1)
  | Event.invokeCb _ :: es, d =>
      if d = 0 then lockDepth es d else none
  | _ :: es, d => lockDepth es d

/-- Every detach of the descriptor from the record happens while the
mutex is held (depth tracked from `d`). -/
def detachUnderLock : List Event → Nat → Bool
  | [], _ => true
  | Event.lock :: es, d => detachUnderLock es (d + 1)
  | Event.unlock :: es, d => detachUnderLock es (d - 1)
  | Event.detachFd _ :: es, d => decide (0 < d) && detachUnderLock es d
  | _ :: es, d => detachUnderLock es d

/-- `tc_on_alarm` of tcp_client_posix.c: shut the descriptor down if the
attempt still holds one, drop this path's reference, and free the record
if that was the last reference.  Returns the record afterwards (`none`
once freed) and the trace of effects.  The `success` flag of the alarm is
ignored, as in the C code. -/
def tc_on_alarm (ac : async_connect) (success : Bool) :
    Option async_connect × List Event :=
  let shutdownEvs : List Event :=
    match ac.fd with
    | some f => [Event.fdShutdown f]
    | none => []
  let done : Bool := decide (ac.refs - 1 = 0)
  let evs := [Event.lock] ++ shutdownEvs ++ [Event.decRefAlarm, Event.unlock]
  if done then
    (none, evs ++ [Event.freeRecord])
  else
    (some { ac with refs := ac.refs - 1 }, evs)

/-- Outcome of the `getsockopt(fd, SOL_SOCKET, SO_ERROR, ...)` call in
`on_writable`, after the EINTR retry loop: either the call itself failed,
or it produced a `so_error` value. -/
inductive SockoptResult where
  | fail : SockoptResult
  | ok : Nat → SockoptResult
  deriving DecidableEq

/-- Result of one invocation of `on_writable`: the `GPR_ASSERT(ac->fd)`
fired (process abort), or the write closure was re-armed and the attempt
continues (the ENOBUFS path), or this was the terminal invocation of the
write path. -/
inductive WriteResult where
  | assertFail : WriteResult
  | rearmed : async_connect → List Event → WriteResult
  | finished : Option async_connect → List Event → WriteResult
  deriving DecidableEq

/-- The `finish:` label of `on_writable`: clean up the descriptor if the
write path still owns one, drop this path's reference, unlock, free the
record if that was the last reference, and invoke the caller's callback
outside the lock. -/
def finishPath (ac : async_connect) (fdv : Option Nat) (ep : Option Nat)
    (pre : List Event) : WriteResult :=
  let cleanupEvs : List Event :=
    match fdv with
    | some f => [Event.pollsetDelFd f, Event.fdOrphan f]
    | none => []
  let done : Bool := decide (ac.refs - 1 = 0)
  let evs := pre ++ cleanupEvs ++ [Event.decRefWrite, Event.unlock]
  if done then
    WriteResult.finished none (evs ++ [Event.freeRecord, Event.invokeCb ep])
  else
    WriteResult.finished (some { ac with refs := ac.refs - 1 })
      (evs ++ [Event.invokeCb ep])

/-- `on_writable` of tcp_client_posix.c.  `success` is the readiness
flag passed by the reactor (false when the descriptor was shut down);
`so` is the outcome of the `SO_ERROR` inspection, consulted only when
`success` holds.  The function asserts `ac->fd != NULL`, detaches the
descriptor under the lock, cancels the alarm, then branches on the
socket error state. -/
def on_writable (ac : async_connect) (success : Bool) (so : SockoptResult) :
    WriteResult :=
  match ac.fd with
  | none => WriteResult.assertFail
  | some fd0 =>
    let ac1 : async_connect := { ac with fd := none }
    let pre : List Event :=
      [Event.lock, Event.detachFd fd0, Event.unlock, Event.alarmCancel,
       Event.lock]
    if success then
      match so with
      | SockoptResult.fail =>
          finishPath ac1 (some fd0) none (pre ++ [Event.getsockoptInspect])
      | SockoptResult.ok so_error =>
          if so_error = 0 then
            finishPath ac1 none (some fd0)
              (pre ++ [Event.getsockoptInspect, Event.pollsetDelFd fd0,
                       Event.tcpCreate fd0])
          else if so_error = ENOBUFS then
            WriteResult.rearmed ac1
              (pre ++ [Event.getsockoptInspect, Event.unlock,
                       Event.notifyOnWrite fd0])
          else
            finishPath ac1 (some fd0) none (pre ++ [Event.getsockoptInspect])
    else
      finishPath ac1 (some fd0) none pre

/-- Environment of one `grpc_tcp_client_connect` call: the outcomes of
the OS calls it makes.  `rawFd = none` models `grpc_create_dualstack_socket`
returning a negative descriptor; `sockOptsOk` summarises the
`grpc_set_socket_*` option calls of `prepare_socket`; `connectErrno` is
the outcome of the `connect` call after the EINTR retry loop (`none` on
synchronous success, `some e` with errno `e` otherwise). -/
structure ConnectEnv where
  rawFd : Option Nat
  sockOptsOk : Bool
  connectErrno : Option Nat
  addrStr : String
  deriving DecidableEq

/-- `prepare_socket` of tcp_client_posix.c: fails on a negative
descriptor (nothing to close) or when an option call fails (closing the
raw descriptor); on success the descriptor is untouched. -/
def prepare_socket (fd : Option Nat) (optsOk : Bool) : Bool × List Event :=
  match fd with
  | none => (false, [])
  | some f => if optsOk then (true, []) else (false, [Event.socketClose f])

/-- `grpc_tcp_client_connect` of tcp_client_posix.c.  Returns the
allocated attempt record (`some` exactly in the would-block path) and
the trace of effects performed synchronously inside the call. -/
def grpc_tcp_client_connect (env : ConnectEnv) (ip : Nat) :
    Option async_connect × List Event :=
  match env.rawFd with
  | none =>
      (none, (prepare_socket none env.sockOptsOk).2 ++ [Event.invokeCb none])
  | some f =>
      match prepare_socket (some f) env.sockOptsOk with
      | (false, prepEvs) => (none, prepEvs ++ [Event.invokeCb none])
      | (true, prepEvs) =>
        match env.connectErrno with
        | none =>
            (none, prepEvs ++ [Event.fdCreate f, Event.tcpCreate f,
                               Event.invokeCb (some f)])
        | some e =>
            if e ≠ EWOULDBLOCK ∧ e ≠ EINPROGRESS then
              (none, prepEvs ++ [Event.fdCreate f, Event.fdOrphan f,
                                 Event.invokeCb none])
            else
              (some { fd := some f, refs := 2, interested_parties := ip,
                      addr_str := env.addrStr },
               prepEvs ++ [Event.fdCreate f, Event.pollsetAddFd f,
                           Event.allocRecord, Event.lock, Event.alarmInit,
                           Event.notifyOnWrite f, Event.unlock])

/-- State of one pending async connect attempt as driven by the iomgr:
the record (released records become `none`), whether the alarm callback
`tc_on_alarm` is still due (the alarm contract runs it exactly once,
fired or cancelled), whether the write closure `on_writable` is armed,
and the cumulative effect trace. -/
structure SysState where
  ac : Option async_connect
  alarmPending : Bool
  writePending : Bool
  trace : List Event
  deriving DecidableEq

/-- A scheduling step: the alarm fires (or its cancellation callback
runs, `success = false`), or the armed write closure runs with a given
readiness flag and `SO_ERROR` outcome. -/
inductive Step where
  | alarm : Bool → Step
  | write : Bool → SockoptResult → Step
  deriving DecidableEq

/-- The attempt state produced by the would-block path of
`grpc_tcp_client_connect`: refcount 2, descriptor attached, alarm armed
with `tc_on_alarm` and write closure armed with `on_writable`. -/
def initSys (f ip : Nat) (s : String) : SysState :=
  { ac := some { fd := some f, refs := 2, interested_parties := ip,
                 addr_str := s },
    alarmPending := true, writePending := true, trace := [] }

/-- Run one scheduling step.  `none` when the step is not enabled (the
corresponding callback is not pending, or the record is gone) or when
`on_writable` hits its assertion (process abort). -/
def stepRun (s : SysState) (st : Step) : Option SysState :=
  match st with
  | Step.alarm b =>
      if s.alarmPending then
        match s.ac with
        | some ac =>
            match tc_on_alarm ac b with
            | (ac2, evs) =>
                some { ac := ac2, alarmPending := false,
                       writePending := s.writePending,
                       trace := s.trace ++ evs }
        | none => none
      else none
  | Step.write b so =>
      if s.writePending then
        match s.ac with
        | some ac =>
            match on_writable ac b so with
            | WriteResult.assertFail => none
            | WriteResult.rearmed ac2 evs =>
                some { ac := some ac2, alarmPending := s.alarmPending,
                       writePending := true, trace := s.trace ++ evs }
            | WriteResult.finished ac2 evs =>
                some { ac := ac2, alarmPending := s.alarmPending,
                       writePending := false, trace := s.trace ++ evs }
        | none => none
      else none

/-- Run a whole schedule. -/
def runSteps : SysState → List Step → Option SysState
  | s, [] => some s
  | s, st :: rest =>
      match stepRun s st with
      | none => none
      | some s2 => runSteps s2 rest

/-- Invariant of the attempt lifecycle tying the refcount and the trace
to the set of still-pending resolution paths. -/
def SysInv (s : SysState) : Prop :=
  lockDepth s.trace 0 = some 0 ∧
  countE Event.decRefAlarm s.trace = (if s.alarmPending then 0 else 1) ∧
  countE Event.decRefWrite s.trace = (if s.writePending then 0 else 1) ∧
  cbCount s.trace = (if s.writePending then 0 else 1) ∧
  countE Event.freeRecord s.trace =
    (if s.alarmPending || s.writePending then 0 else 1) ∧
  (match s.ac with
   | some a =>
       a.refs = (if s.alarmPending then 1 else 0) +
                (if s.writePending then 1 else 0) ∧
       (s.alarmPending || s.writePending) = true
   | none => s.alarmPending = false ∧ s.writePending = false)

/-- The trace of one `on_writable` invocation, `none` on assertion
failure. -/
def writeTrace : WriteResult → Option (List Event)
  | WriteResult.assertFail => none
  | WriteResult.rearmed _ evs => some evs
  | WriteResult.finished _ evs => some evs

/-- The terminal-failure conditions of the write path: the readiness
callback fired with a failure indicator (descriptor shut down), the
`getsockopt` call itself failed, or it reported a nonzero socket error
other than `ENOBUFS`. -/
def terminalFailure (b : Bool) (so : SockoptResult) : Prop :=
  b = false ∨ so = SockoptResult.fail ∨
    ∃ e, so = SockoptResult.ok e ∧ e ≠ 0 ∧ e ≠ ENOBUFS

/-- Does this environment drive `grpc_tcp_client_connect` into the
asynchronous (would-block) path? -/
def asyncPath (env : ConnectEnv) : Bool :=
  (match env.rawFd with
   | some _ => true
   | none => false) &&
  env.sockOptsOk &&
  (match env.connectErrno with
   | some e => decide (e = EWOULDBLOCK ∨ e = EINPROGRESS)
   | none => false)

/-- A concrete attempt record used by the witnesses: descriptor 3,
refcount 2. -/
def acDemo : async_connect :=
  { fd := some 3, refs := 2, interested_parties := 7, addr_str := "demo" }

/-- A concrete schedule: the write path resolves successfully first,
then the cancelled alarm's callback runs. -/
def demoSteps : List Step :=
  [Step.write true (SockoptResult.ok 0), Step.alarm false]

/-- The state after running `demoSteps` from the initial attempt
state. -/
def demoFinal : SysState :=
  (runSteps (initSys 3 7 "demo") demoSteps).getD (initSys 3 7 "demo")

theorem countE_append (e : Event) (xs ys : List Event) :
    countE e (xs ++ ys) = countE e xs + countE e ys := by
  simp [countE, List.filter_append]

theorem cbCount_append (xs ys : List Event) :
    cbCount (xs ++ ys) = cbCount xs + cbCount ys := by
  simp [cbCount, List.filter_append]

theorem cbArgs_append (xs ys : List Event) :
    cbArgs (xs ++ ys) = cbArgs xs ++ cbArgs ys := by
  simp [cbArgs, List.filterMap_append]

theorem lockDepth_append (xs ys : List Event) (d : Nat) :
    lockDepth (xs ++ ys) d =
      (lockDepth xs d).bind (fun d2 => lockDepth ys d2) := by
  induction xs generalizing d with
  | nil => rfl
  | cons x xs ih =>
      cases x <;> simp only [List.cons_append, lockDepth] <;>
        first
          | exact ih _
          | (split <;> simp [ih])

/-- Characterization of `tc_on_alarm`: one alarm-path decrement, the
descriptor shut down exactly when the attempt still holds one, never a
completion-callback invocation, the record released exactly when this
was the last reference, and no other field modified. -/
theorem tc_on_alarm_spec (ac : async_connect) (b : Bool) :
    countE Event.decRefAlarm (tc_on_alarm ac b).2 = 1 ∧
    countE Event.decRefWrite (tc_on_alarm ac b).2 = 0 ∧
    cbCount (tc_on_alarm ac b).2 = 0 ∧
    countE Event.freeRecord (tc_on_alarm ac b).2 =
      (if ac.refs = 1 then 1 else 0) ∧
    lockDepth (tc_on_alarm ac b).2 0 = some 0 ∧
    (tc_on_alarm ac b).1 =
      (if ac.refs = 1 then none
       else some { ac with refs := ac.refs - 1 }) ∧
    (match ac.fd with
     | some f => countE (Event.fdShutdown f) (tc_on_alarm ac b).2 = 1
     | none => ∀ g, countE (Event.fdShutdown g) (tc_on_alarm ac b).2 = 0) := by
  obtain ⟨fd0, r, ip, str⟩ := ac
  by_cases hr : r = 1
  · subst hr
    cases fd0 <;>
      refine ⟨rfl, rfl, rfl, rfl, rfl, rfl, ?_⟩
    · intro g
      simp [tc_on_alarm, countE]
    · simp [tc_on_alarm, countE]
  · have haux : ¬(r - 1 = 0) := by
      intro hcontra
      exact hr (by linarith)
    cases fd0 <;>
      simp only [tc_on_alarm, haux, decide_eq_true_eq, if_false, hr,
        decide_False, Bool.false_eq_true, if_neg, not_false_iff] <;>
      refine ⟨rfl, rfl, rfl, ?_, rfl, ?_, ?_⟩ <;>
      simp [countE, cbCount, lockDepth, hr]

/-- Characterization of one `on_writable` invocation on an attempt that
still holds its descriptor: either the ENOBUFS continuation (descriptor
detached and the write closure re-armed, nothing decremented, nothing
freed, no callback), or the terminal invocation (exactly one write-path
decrement, exactly one completion-callback invocation, the record
released exactly when this was the last reference). -/
theorem on_writable_spec (ac : async_connect) (f : Nat) (b : Bool)
    (so : SockoptResult) (h : ac.fd = some f) :
    (b = true ∧ so = SockoptResult.ok ENOBUFS ∧
     ∃ evs, on_writable ac b so = WriteResult.rearmed { ac with fd := none } evs ∧
       countE Event.decRefAlarm evs = 0 ∧
       countE Event.decRefWrite evs = 0 ∧
       cbCount evs = 0 ∧
       countE Event.freeRecord evs = 0 ∧
       lockDepth evs 0 = some 0) ∨
    (∃ evs ep, on_writable ac b so =
        WriteResult.finished
          (if ac.refs = 1 then none
           else some { ac with fd := none, refs := ac.refs - 1 }) evs ∧
       countE Event.decRefAlarm evs = 0 ∧
       countE Event.decRefWrite evs = 1 ∧
       cbCount evs = 1 ∧
       cbArgs evs = [ep] ∧
       countE Event.freeRecord evs = (if ac.refs = 1 then 1 else 0) ∧
       lockDepth evs 0 = some 0) := by
  obtain ⟨fd0, r, ip, str⟩ := ac
  obtain rfl : fd0 = some f := h
  have hsub : ∀ s : Int, (decide (s - 1 = 0)) = decide (s = 1) := by
    intro s
    by_cases hs : s = 1 <;> simp [hs, sub_eq_zero]
  by_cases hr : r = 1 <;> cases b
  · -- r = 1, write closure woken with failure indicator
    subst hr
    exact Or.inr ⟨_, none, rfl, rfl, rfl, rfl, rfl, rfl, rfl⟩
  · -- r = 1, success: case on the SO_ERROR outcome
    subst hr
    cases so with
    | fail => exact Or.inr ⟨_, none, rfl, rfl, rfl, rfl, rfl, rfl, rfl⟩
    | ok e =>
        by_cases he : e = 0
        · subst he
          exact Or.inr ⟨_, some f, rfl, rfl, rfl, rfl, rfl, rfl, rfl⟩
        · by_cases hb : e = ENOBUFS
          · subst hb
            exact Or.inl ⟨rfl, rfl, _, rfl, rfl, rfl, rfl, rfl, rfl⟩
          · refine Or.inr ⟨[Event.lock, Event.detachFd f, Event.unlock,
                Event.alarmCancel, Event.lock, Event.getsockoptInspect,
                Event.pollsetDelFd f, Event.fdOrphan f, Event.decRefWrite,
                Event.unlock, Event.freeRecord, Event.invokeCb none], none,
                ?_, ?_, ?_, ?_, ?_, ?_, ?_⟩ <;>
              simp [on_writable, finishPath, he, hb, countE, cbCount, Event.isCb,
                cbArgs, lockDepth]
  · -- r ≠ 1, failure indicator
    refine Or.inr ⟨[Event.lock, Event.detachFd f, Event.unlock,
        Event.alarmCancel, Event.lock, Event.pollsetDelFd f,
        Event.fdOrphan f, Event.decRefWrite, Event.unlock,
        Event.invokeCb none], none, ?_, ?_, ?_, ?_, ?_, ?_, ?_⟩ <;>
      simp [on_writable, finishPath, hsub, hr, countE, cbCount, Event.isCb,
        cbArgs, lockDepth]
  · -- r ≠ 1, success
    cases so with
    | fail =>
        refine Or.inr ⟨[Event.lock, Event.detachFd f, Event.unlock,
            Event.alarmCancel, Event.lock, Event.getsockoptInspect,
            Event.pollsetDelFd f, Event.fdOrphan f, Event.decRefWrite,
            Event.unlock, Event.invokeCb none], none,
            ?_, ?_, ?_, ?_, ?_, ?_, ?_⟩ <;>
          simp [on_writable, finishPath, hsub, hr, countE, cbCount,
            Event.isCb, cbArgs, lockDepth]
    | ok e =>
        by_cases he : e = 0
        · subst he
          refine Or.inr ⟨[Event.lock, Event.detachFd f, Event.unlock,
              Event.alarmCancel, Event.lock, Event.getsockoptInspect,
              Event.pollsetDelFd f, Event.tcpCreate f, Event.decRefWrite,
              Event.unlock, Event.invokeCb (some f)], some f,
              ?_, ?_, ?_, ?_, ?_, ?_, ?_⟩ <;>
            simp [on_writable, finishPath, hsub, hr, countE, cbCount, Event.isCb,
              cbArgs, lockDepth]
        · by_cases hb : e = ENOBUFS
          · subst hb
            exact Or.inl ⟨rfl, rfl, _, rfl, rfl, rfl, rfl, rfl, rfl⟩
          · refine Or.inr ⟨[Event.lock, Event.detachFd f, Event.unlock,
                Event.alarmCancel, Event.lock, Event.getsockoptInspect,
                Event.pollsetDelFd f, Event.fdOrphan f, Event.decRefWrite,
                Event.unlock, Event.invokeCb none], none,
                ?_, ?_, ?_, ?_, ?_, ?_, ?_⟩ <;>
              simp [on_writable, finishPath, hsub, hr, he, hb, countE,
                cbCount, Event.isCb, cbArgs, lockDepth]

/-- One enabled scheduling step preserves the lifecycle invariant. -/
theorem stepRun_inv (s s2 : SysState) (st : Step) (hInv : SysInv s)
    (h : stepRun s st = some s2) : SysInv s2 := by
  obtain ⟨hLock, hDA, hDW, hCb, hFree, hAc⟩ := hInv
  cases st with
  | alarm b =>
      cases hA : s.alarmPending with
      | false => simp [stepRun, hA] at h
      | true =>
          cases hac : s.ac with
          | none => simp [stepRun, hA, hac] at h
          | some a =>
              obtain ⟨t1, t2, t3, t4, t5, t6, t7⟩ := tc_on_alarm_spec a b
              rw [hac] at hAc
              obtain ⟨hrefs, hor⟩ := hAc
              rw [hA] at hrefs hDA hFree
              simp only [stepRun, hA, if_true, hac] at h
              injection h with h
              subst h
              cases hW : s.writePending with
              | true =>
                  rw [hW] at hrefs hDW hCb hFree
                  have hr2 : a.refs = 2 := by rw [hrefs]; norm_num
                  have hne : ¬a.refs = 1 := by rw [hr2]; decide
                  refine ⟨?_, ?_, ?_, ?_, ?_, ?_⟩
                  · rw [lockDepth_append, hLock]
                    exact t5
                  · simp [countE_append, hDA, t1]
                  · simp [countE_append, hDW, t2, hW]
                  · simp [cbCount_append, hCb, t3, hW]
                  · simp [countE_append, hFree, t4, hne, hW]
                  · simp only [t6, if_neg hne, hW]
                    exact ⟨by simp [hr2], by simp⟩
              | false =>
                  rw [hW] at hrefs hDW hCb hFree
                  have hr1 : a.refs = 1 := by rw [hrefs]; norm_num
                  refine ⟨?_, ?_, ?_, ?_, ?_, ?_⟩
                  · rw [lockDepth_append, hLock]
                    exact t5
                  · simp [countE_append, hDA, t1]
                  · simp [countE_append, hDW, t2, hW]
                  · simp [cbCount_append, hCb, t3, hW]
                  · simp [countE_append, hFree, t4, hr1, hW]
                  · simp only [t6, if_pos hr1, hW]
                    refine ⟨?_, ?_⟩ <;> trivial
  | write b so =>
      cases hW : s.writePending with
      | false => simp [stepRun, hW] at h
      | true =>
          cases hac : s.ac with
          | none => simp [stepRun, hW, hac] at h
          | some a =>
              rw [hac] at hAc
              obtain ⟨hrefs, hor⟩ := hAc
              rw [hW] at hrefs hDW hCb hFree
              cases haf : a.fd with
              | none => simp [stepRun, hW, hac, on_writable, haf] at h
              | some f =>
                  rcases on_writable_spec a f b so haf with
                    ⟨hb2, hso, evs, heq, w1, w2, w3, w4, w5⟩ |
                    ⟨evs, ep, heq, w1, w2, w3, w4, w5, w6⟩
                  · -- ENOBUFS continuation: nothing decremented, nothing freed
                    simp only [stepRun, hW, if_true, hac, heq] at h
                    injection h with h
                    subst h
                    refine ⟨?_, ?_, ?_, ?_, ?_, ?_⟩
                    · rw [lockDepth_append, hLock]
                      exact w5
                    · simp [countE_append, hDA, w1]
                    · simp [countE_append, hDW, w2]
                    · simp [cbCount_append, hCb, w3]
                    · simp [countE_append, hFree, w4]
                    · exact ⟨hrefs, by simp⟩
                  · -- terminal invocation of the write path
                    simp only [stepRun, hW, if_true, hac, heq] at h
                    injection h with h
                    subst h
                    cases hA : s.alarmPending with
                    | true =>
                        rw [hA] at hrefs hDA hFree
                        have hr2 : a.refs = 2 := by rw [hrefs]; norm_num
                        have hne : ¬a.refs = 1 := by rw [hr2]; decide
                        refine ⟨?_, ?_, ?_, ?_, ?_, ?_⟩
                        · rw [lockDepth_append, hLock]
                          exact w6
                        · simp [countE_append, hDA, w1, hA]
                        · simp [countE_append, hDW, w2]
                        · simp [cbCount_append, hCb, w3]
                        · simp [countE_append, hFree, w5, hne, hA]
                        · simp only [if_neg hne, hA]
                          exact ⟨by simp [hr2], by simp⟩
                    | false =>
                        rw [hA] at hrefs hDA hFree
                        have hr1 : a.refs = 1 := by rw [hrefs]; norm_num
                        refine ⟨?_, ?_, ?_, ?_, ?_, ?_⟩
                        · rw [lockDepth_append, hLock]
                          exact w6
                        · simp [countE_append, hDA, w1, hA]
                        · simp [countE_append, hDW, w2]
                        · simp [cbCount_append, hCb, w3]
                        · simp [countE_append, hFree, w5, hr1, hA]
                        · simp only [if_pos hr1, hA]
                          refine ⟨?_, ?_⟩ <;> trivial


/-- A whole enabled schedule preserves the lifecycle invariant. -/
theorem runSteps_inv (steps : List Step) (s s2 : SysState) (hInv : SysInv s)
    (h : runSteps s steps = some s2) : SysInv s2 := by
  induction steps generalizing s with
  | nil =>
      simp only [runSteps] at h
      injection h with h
      subst h
      exact hInv
  | cons st rest ih =>
      simp only [runSteps] at h
      cases hst : stepRun s st with
      | none => rw [hst] at h; exact absurd h (by simp)
      | some smid =>
          rw [hst] at h
          exact ih smid (stepRun_inv s smid st hInv hst) h

/-- C1: for every async connect attempt record, over any enabled schedule
that retires both the timer path and the write path without aborting, the
timer path and the terminal write invocation each decrement the reference
count exactly once, the record is released exactly once, the caller's
completion callback is invoked exactly once and outside the attempt's
lock, and the record is gone afterwards. -/
theorem c1_refcount_lifecycle (f ip : Nat) (str : String)
    (steps : List Step) (final : SysState)
    (h : runSteps (initSys f ip str) steps = some final)
    (hA : final.alarmPending = false) (hW : final.writePending = false) :
    countE Event.freeRecord final.trace = 1 ∧
    cbCount final.trace = 1 ∧
    countE Event.decRefAlarm final.trace = 1 ∧
    countE Event.decRefWrite final.trace = 1 ∧
    lockDepth final.trace 0 = some 0 ∧
    final.ac = none := by
  have hInv0 : SysInv (initSys f ip str) := by
    refine ⟨rfl, rfl, rfl, rfl, rfl, ?_⟩
    exact ⟨by simp [initSys], rfl⟩
  obtain ⟨hLock, hDA, hDW, hCb, hFree, hAc⟩ :=
    runSteps_inv steps _ final hInv0 h
  rw [hA] at hDA hFree
  rw [hW] at hDW hCb hFree
  refine ⟨by simpa using hFree, by simpa using hCb, by simpa using hDA,
    by simpa using hDW, hLock, ?_⟩
  cases hac : final.ac with
  | none => rfl
  | some a =>
      rw [hac] at hAc
      obtain ⟨-, hor⟩ := hAc
      rw [hA, hW] at hor
      simp at hor

/-- Witness for C1: the concrete schedule where the write path resolves
with no socket error and the alarm callback then retires the timer
reference. -/
theorem c1_refcount_lifecycle_witness :
    runSteps (initSys 3 7 "demo") demoSteps = some demoFinal ∧
    demoFinal.alarmPending = false ∧
    demoFinal.writePending = false ∧
    (countE Event.freeRecord demoFinal.trace = 1 ∧
     cbCount demoFinal.trace = 1 ∧
     countE Event.decRefAlarm demoFinal.trace = 1 ∧
     countE Event.decRefWrite demoFinal.trace = 1 ∧
     lockDepth demoFinal.trace 0 = some 0 ∧
     demoFinal.ac = none) :=
  ⟨by decide, by decide, by decide,
   c1_refcount_lifecycle 3 7 "demo" demoSteps demoFinal (by decide)
     (by decide) (by decide)⟩

/-- C6: `tc_on_alarm` never invokes the caller's completion callback;
it shuts the descriptor down exactly when the attempt still holds one,
performs the timer path's reference-count decrement, frees the record
exactly when it held the last reference, and modifies no other attempt
state. -/
theorem c6_tc_on_alarm_behaviour (ac : async_connect) (b : Bool) :
    cbCount (tc_on_alarm ac b).2 = 0 ∧
    (match ac.fd with
     | some f => countE (Event.fdShutdown f) (tc_on_alarm ac b).2 = 1
     | none => ∀ g, countE (Event.fdShutdown g) (tc_on_alarm ac b).2 = 0) ∧
    countE Event.decRefAlarm (tc_on_alarm ac b).2 = 1 ∧
    countE Event.freeRecord (tc_on_alarm ac b).2 =
      (if ac.refs = 1 then 1 else 0) ∧
    (tc_on_alarm ac b).1 =
      (if ac.refs = 1 then none
       else some { ac with refs := ac.refs - 1 }) := by
  obtain ⟨t1, t2, t3, t4, t5, t6, t7⟩ := tc_on_alarm_spec ac b
  exact ⟨t3, t7, t1, t4, t6⟩

/-- C2: when `on_writable` observes `SO_ERROR = ENOBUFS` on a successful
readiness notification it re-arms the write-readiness callback on the
same descriptor and returns without decrementing the reference count,
without invoking the caller's completion callback and without releasing
anything. -/
theorem c2_enobufs_rearm (ac : async_connect) (f : Nat)
    (h : ac.fd = some f) :
    ∃ evs, on_writable ac true (SockoptResult.ok ENOBUFS) =
        WriteResult.rearmed { ac with fd := none } evs ∧
      countE (Event.notifyOnWrite f) evs = 1 ∧
      cbCount evs = 0 ∧
      countE Event.decRefWrite evs = 0 ∧
      countE Event.decRefAlarm evs = 0 ∧
      countE Event.freeRecord evs = 0 := by
  obtain ⟨fd0, r, ip, str⟩ := ac
  obtain rfl : fd0 = some f := h
  refine ⟨_, rfl, ?_, rfl, rfl, rfl, rfl⟩
  simp [countE]

/-- Witness for C2 at the concrete attempt record `acDemo`. -/
theorem c2_enobufs_rearm_witness :
    acDemo.fd = some 3 ∧
    (∃ evs, on_writable acDemo true (SockoptResult.ok ENOBUFS) =
        WriteResult.rearmed { acDemo with fd := none } evs ∧
      countE (Event.notifyOnWrite 3) evs = 1 ∧
      cbCount evs = 0 ∧
      countE Event.decRefWrite evs = 0 ∧
      countE Event.decRefAlarm evs = 0 ∧
      countE Event.freeRecord evs = 0) :=
  ⟨rfl, c2_enobufs_rearm acDemo 3 rfl⟩

/-- C4: the assertion at the top of `on_writable` does fire on the
invocation that follows an ENOBUFS re-arm: the ENOBUFS path re-arms the
write closure after having set the record's descriptor field to NULL, so
the re-armed invocation aborts.  The claim that every invocation finds
the descriptor non-NULL is the code's own stated invariant, violated on
this path. -/
theorem c4_assert_fires_after_enobufs_rearm :
    ∃ evs, on_writable acDemo true (SockoptResult.ok ENOBUFS) =
        WriteResult.rearmed { acDemo with fd := none } evs ∧
      ({ acDemo with fd := none } : async_connect).fd = none ∧
      on_writable { acDemo with fd := none } true (SockoptResult.ok 0) =
        WriteResult.assertFail :=
  ⟨_, rfl, rfl, rfl⟩

/-- C5: on every terminal failure of the asynchronous write path
(readiness failure indicator, failed `getsockopt`, or a nonzero socket
error other than `ENOBUFS`), the descriptor is removed from the interest
group and orphaned before the completion callback is invoked, and the
callback receives a NULL transport. -/
theorem c5_terminal_failure_cleanup (ac : async_connect) (f : Nat)
    (b : Bool) (so : SockoptResult) (h : ac.fd = some f)
    (ht : terminalFailure b so) :
    ∃ ac2 evs, on_writable ac b so = WriteResult.finished ac2 evs ∧
      countE (Event.pollsetDelFd f) (evs.takeWhile (fun e => !e.isCb)) = 1 ∧
      countE (Event.fdOrphan f) (evs.takeWhile (fun e => !e.isCb)) = 1 ∧
      cbArgs evs = [none] := by
  obtain ⟨fd0, r, ip, str⟩ := ac
  obtain rfl : fd0 = some f := h
  have hsub : ∀ s : Int, (decide (s - 1 = 0)) = decide (s = 1) := by
    intro s
    by_cases hs : s = 1 <;> simp [hs, sub_eq_zero]
  cases b with
  | false =>
      by_cases hr : r = 1
      · subst hr
        refine ⟨_, _, rfl, ?_, ?_, rfl⟩ <;>
          simp [countE, Event.isCb, List.takeWhile]
      · refine ⟨some (async_connect.mk none (r - 1) ip str),
            [Event.lock, Event.detachFd f, Event.unlock, Event.alarmCancel,
             Event.lock, Event.pollsetDelFd f, Event.fdOrphan f,
             Event.decRefWrite, Event.unlock, Event.invokeCb none],
            ?_, ?_, ?_, ?_⟩ <;>
          simp [on_writable, finishPath, hsub, hr, countE, Event.isCb,
            cbArgs, List.takeWhile]
  | true =>
      rcases ht with hb | hso | ⟨e, hso, he0, heb⟩
      · exact absurd hb (by decide)
      · subst hso
        by_cases hr : r = 1
        · subst hr
          refine ⟨_, _, rfl, ?_, ?_, rfl⟩ <;>
            simp [countE, Event.isCb, List.takeWhile]
        · refine ⟨some (async_connect.mk none (r - 1) ip str),
              [Event.lock, Event.detachFd f, Event.unlock,
               Event.alarmCancel, Event.lock, Event.getsockoptInspect,
               Event.pollsetDelFd f, Event.fdOrphan f, Event.decRefWrite,
               Event.unlock, Event.invokeCb none],
              ?_, ?_, ?_, ?_⟩ <;>
            simp [on_writable, finishPath, hsub, hr, countE, Event.isCb,
              cbArgs, List.takeWhile]
      · subst hso
        by_cases hr : r = 1
        · subst hr
          refine ⟨none, [Event.lock, Event.detachFd f, Event.unlock,
              Event.alarmCancel, Event.lock, Event.getsockoptInspect,
              Event.pollsetDelFd f, Event.fdOrphan f, Event.decRefWrite,
              Event.unlock, Event.freeRecord, Event.invokeCb none],
              ?_, ?_, ?_, ?_⟩ <;>
            simp [on_writable, finishPath, he0, heb, countE, Event.isCb,
              cbArgs, List.takeWhile]
        · refine ⟨some (async_connect.mk none (r - 1) ip str),
              [Event.lock, Event.detachFd f, Event.unlock,
               Event.alarmCancel, Event.lock, Event.getsockoptInspect,
               Event.pollsetDelFd f, Event.fdOrphan f, Event.decRefWrite,
               Event.unlock, Event.invokeCb none],
              ?_, ?_, ?_, ?_⟩ <;>
            simp [on_writable, finishPath, hsub, hr, he0, heb, countE,
              Event.isCb, cbArgs, List.takeWhile]

/-- Witness for C5: connection refused (`SO_ERROR = ECONNREFUSED`) on the
concrete attempt record `acDemo`. -/
theorem c5_terminal_failure_cleanup_witness :
    acDemo.fd = some 3 ∧
    terminalFailure true (SockoptResult.ok ECONNREFUSED) ∧
    (∃ ac2 evs, on_writable acDemo true (SockoptResult.ok ECONNREFUSED) =
        WriteResult.finished ac2 evs ∧
      countE (Event.pollsetDelFd 3) (evs.takeWhile (fun e => !e.isCb)) = 1 ∧
      countE (Event.fdOrphan 3) (evs.takeWhile (fun e => !e.isCb)) = 1 ∧
      cbArgs evs = [none]) :=
  ⟨rfl, Or.inr (Or.inr ⟨ECONNREFUSED, rfl, by decide, by decide⟩),
   c5_terminal_failure_cleanup acDemo 3 true (SockoptResult.ok ECONNREFUSED)
     rfl (Or.inr (Or.inr ⟨ECONNREFUSED, rfl, by decide, by decide⟩))⟩

/-- C10: on every invocation of the write path for an attempt that holds
its descriptor, the descriptor is detached from the record while the
attempt's lock is held and the deadline timer is cancelled, both before
the socket error state is inspected. -/
theorem c10_detach_and_cancel_before_inspect (ac : async_connect)
    (f : Nat) (b : Bool) (so : SockoptResult) (h : ac.fd = some f) :
    ∃ evs, writeTrace (on_writable ac b so) = some evs ∧
      countE Event.alarmCancel
        (evs.takeWhile (fun e => !e.isInspect)) = 1 ∧
      countE (Event.detachFd f)
        (evs.takeWhile (fun e => !e.isInspect)) = 1 ∧
      detachUnderLock evs 0 = true := by
  obtain ⟨fd0, r, ip, str⟩ := ac
  obtain rfl : fd0 = some f := h
  have hsub : ∀ s : Int, (decide (s - 1 = 0)) = decide (s = 1) := by
    intro s
    by_cases hs : s = 1 <;> simp [hs, sub_eq_zero]
  by_cases hr : r = 1
  · subst hr
    cases b
    · refine ⟨_, rfl, ?_, ?_, ?_⟩ <;>
        simp [countE, Event.isInspect, List.takeWhile, detachUnderLock]
    · cases so with
      | fail =>
          refine ⟨_, rfl, ?_, ?_, ?_⟩ <;>
            simp [countE, Event.isInspect, List.takeWhile, detachUnderLock]
      | ok e =>
          by_cases he : e = 0
          · subst he
            refine ⟨_, rfl, ?_, ?_, ?_⟩ <;>
              simp [countE, Event.isInspect, List.takeWhile,
                detachUnderLock]
          · by_cases hb : e = ENOBUFS
            · subst hb
              refine ⟨_, rfl, ?_, ?_, ?_⟩ <;>
                simp [countE, Event.isInspect, List.takeWhile,
                  detachUnderLock]
            · refine ⟨[Event.lock, Event.detachFd f, Event.unlock,
                  Event.alarmCancel, Event.lock, Event.getsockoptInspect,
                  Event.pollsetDelFd f, Event.fdOrphan f,
                  Event.decRefWrite, Event.unlock, Event.freeRecord,
                  Event.invokeCb none], ?_, ?_, ?_, ?_⟩ <;>
                simp [on_writable, finishPath, writeTrace, he, hb, countE,
                  Event.isInspect, List.takeWhile, detachUnderLock]
  · cases b
    · refine ⟨[Event.lock, Event.detachFd f, Event.unlock,
          Event.alarmCancel, Event.lock, Event.pollsetDelFd f,
          Event.fdOrphan f, Event.decRefWrite, Event.unlock,
          Event.invokeCb none], ?_, ?_, ?_, ?_⟩ <;>
        simp [on_writable, finishPath, writeTrace, hsub, hr, countE,
          Event.isInspect, List.takeWhile, detachUnderLock]
    · cases so with
      | fail =>
          refine ⟨[Event.lock, Event.detachFd f, Event.unlock,
              Event.alarmCancel, Event.lock, Event.getsockoptInspect,
              Event.pollsetDelFd f, Event.fdOrphan f, Event.decRefWrite,
              Event.unlock, Event.invokeCb none], ?_, ?_, ?_, ?_⟩ <;>
            simp [on_writable, finishPath, writeTrace, hsub, hr, countE,
              Event.isInspect, List.takeWhile, detachUnderLock]
      | ok e =>
          by_cases he : e = 0
          · subst he
            refine ⟨[Event.lock, Event.detachFd f, Event.unlock,
                Event.alarmCancel, Event.lock, Event.getsockoptInspect,
                Event.pollsetDelFd f, Event.tcpCreate f,
                Event.decRefWrite, Event.unlock, Event.invokeCb (some f)],
                ?_, ?_, ?_, ?_⟩ <;>
              simp [on_writable, finishPath, writeTrace, hsub, hr, countE,
                Event.isInspect, List.takeWhile, detachUnderLock]
          · by_cases hb : e = ENOBUFS
            · subst hb
              refine ⟨_, rfl, ?_, ?_, ?_⟩ <;>
                simp [countE, Event.isInspect, List.takeWhile,
                  detachUnderLock]
            · refine ⟨[Event.lock, Event.detachFd f, Event.unlock,
                  Event.alarmCancel, Event.lock, Event.getsockoptInspect,
                  Event.pollsetDelFd f, Event.fdOrphan f,
                  Event.decRefWrite, Event.unlock, Event.invokeCb none],
                  ?_, ?_, ?_, ?_⟩ <;>
                simp [on_writable, finishPath, writeTrace, hsub, hr, he,
                  hb, countE, Event.isInspect, List.takeWhile,
                  detachUnderLock]

/-- Witness for C10 on the concrete attempt record `acDemo`, with a
successful readiness notification and no socket error. -/
theorem c10_detach_and_cancel_before_inspect_witness :
    acDemo.fd = some 3 ∧
    (∃ evs, writeTrace (on_writable acDemo true (SockoptResult.ok 0)) =
        some evs ∧
      countE Event.alarmCancel
        (evs.takeWhile (fun e => !e.isInspect)) = 1 ∧
      countE (Event.detachFd 3)
        (evs.takeWhile (fun e => !e.isInspect)) = 1 ∧
      detachUnderLock evs 0 = true) :=
  ⟨rfl, c10_detach_and_cancel_before_inspect acDemo 3 true
    (SockoptResult.ok 0) rfl⟩

/-- C7: if the non-blocking connect call succeeds synchronously, the
completion callback is invoked with a transport wrapping the descriptor,
and no timer is armed, no interest-group registration happens, and no
attempt record is allocated. -/
theorem c7_sync_success (env : ConnectEnv) (ip f : Nat)
    (h1 : env.rawFd = some f) (h2 : env.sockOptsOk = true)
    (h3 : env.connectErrno = none) :
    ∃ evs, grpc_tcp_client_connect env ip = (none, evs) ∧
      cbArgs evs = [some f] ∧
      countE Event.alarmInit evs = 0 ∧
      (∀ g, countE (Event.pollsetAddFd g) evs = 0) ∧
      countE Event.allocRecord evs = 0 := by
  obtain ⟨rf, so, ce, astr⟩ := env
  obtain rfl : rf = some f := h1
  obtain rfl : so = true := h2
  obtain rfl : ce = none := h3
  exact ⟨_, rfl, rfl, rfl, fun g => rfl, rfl⟩

/-- Witness for C7 with descriptor 4. -/
theorem c7_sync_success_witness :
    (ConnectEnv.mk (some 4) true none "d").rawFd = some 4 ∧
    (ConnectEnv.mk (some 4) true none "d").sockOptsOk = true ∧
    (ConnectEnv.mk (some 4) true none "d").connectErrno = none ∧
    (∃ evs, grpc_tcp_client_connect (ConnectEnv.mk (some 4) true none "d")
        0 = (none, evs) ∧
      cbArgs evs = [some 4] ∧
      countE Event.alarmInit evs = 0 ∧
      (∀ g, countE (Event.pollsetAddFd g) evs = 0) ∧
      countE Event.allocRecord evs = 0) :=
  ⟨rfl, rfl, rfl,
   c7_sync_success (ConnectEnv.mk (some 4) true none "d") 0 4 rfl rfl rfl⟩

/-- C8: if socket creation or option-setting fails, the completion
callback is invoked synchronously with a NULL transport, no descriptor
handle is created, and the raw socket, if one was created, is closed. -/
theorem c8_prepare_failure (env : ConnectEnv) (ip : Nat)
    (h : env.rawFd = none ∨
         (∃ f, env.rawFd = some f ∧ env.sockOptsOk = false)) :
    ∃ evs, grpc_tcp_client_connect env ip = (none, evs) ∧
      cbArgs evs = [none] ∧
      (∀ g, countE (Event.fdCreate g) evs = 0) ∧
      (match env.rawFd with
       | some f => countE (Event.socketClose f) evs = 1
       | none => ∀ g, countE (Event.socketClose g) evs = 0) := by
  obtain ⟨rf, so, ce, astr⟩ := env
  rcases h with h | ⟨f, hf, hso⟩
  · obtain rfl : rf = none := h
    exact ⟨_, rfl, rfl, fun g => rfl, fun g => rfl⟩
  · obtain rfl : rf = some f := hf
    obtain rfl : so = false := hso
    refine ⟨_, rfl, rfl, fun g => rfl, ?_⟩
    simp [countE]

/-- Witness for C8: socket creation itself fails. -/
theorem c8_prepare_failure_witness :
    ((ConnectEnv.mk none true none "d").rawFd = none ∨
     (∃ f, (ConnectEnv.mk none true none "d").rawFd = some f ∧
       (ConnectEnv.mk none true none "d").sockOptsOk = false)) ∧
    (∃ evs, grpc_tcp_client_connect (ConnectEnv.mk none true none "d") 0 =
        (none, evs) ∧
      cbArgs evs = [none] ∧
      (∀ g, countE (Event.fdCreate g) evs = 0) ∧
      (match (ConnectEnv.mk none true none "d").rawFd with
       | some f => countE (Event.socketClose f) evs = 1
       | none => ∀ g, countE (Event.socketClose g) evs = 0)) :=
  ⟨Or.inl rfl,
   c8_prepare_failure (ConnectEnv.mk none true none "d") 0 (Or.inl rfl)⟩

/-- C9: with a prepared socket, a connect errno of EWOULDBLOCK or
EINPROGRESS registers the descriptor with the interest group, allocates
the attempt record with refcount exactly 2, arms the deadline timer
(whose callback `tc_on_alarm` shuts the descriptor down while the
attempt still holds it) and the write-readiness callback, with no
synchronous completion; any other connect errno is terminal, orphaning
the descriptor and invoking the callback with NULL. -/
theorem c9_would_block_vs_terminal (env : ConnectEnv) (ip f e : Nat)
    (h1 : env.rawFd = some f) (h2 : env.sockOptsOk = true)
    (h3 : env.connectErrno = some e) :
    if e = EWOULDBLOCK ∨ e = EINPROGRESS then
      ∃ ac evs, grpc_tcp_client_connect env ip = (some ac, evs) ∧
        ac.refs = 2 ∧ ac.fd = some f ∧ ac.interested_parties = ip ∧
        countE (Event.pollsetAddFd f) evs = 1 ∧
        countE Event.allocRecord evs = 1 ∧
        countE Event.alarmInit evs = 1 ∧
        countE (Event.notifyOnWrite f) evs = 1 ∧
        cbArgs evs = [] ∧
        (∀ b, countE (Event.fdShutdown f) (tc_on_alarm ac b).2 = 1)
    else
      ∃ evs, grpc_tcp_client_connect env ip = (none, evs) ∧
        countE (Event.fdOrphan f) evs = 1 ∧
        cbArgs evs = [none] := by
  obtain ⟨rf, so, ce, astr⟩ := env
  obtain rfl : rf = some f := h1
  obtain rfl : so = true := h2
  obtain rfl : ce = some e := h3
  by_cases hcond : e = EWOULDBLOCK ∨ e = EINPROGRESS
  · rw [if_pos hcond]
    have hneg : ¬(e ≠ EWOULDBLOCK ∧ e ≠ EINPROGRESS) := by tauto
    refine ⟨async_connect.mk (some f) 2 ip astr,
        [Event.fdCreate f, Event.pollsetAddFd f, Event.allocRecord,
         Event.lock, Event.alarmInit, Event.notifyOnWrite f, Event.unlock],
        ?_, rfl, rfl, rfl, ?_, rfl, rfl, ?_, rfl, ?_⟩
    · simp [grpc_tcp_client_connect, prepare_socket, hneg]
    · simp [countE]
    · simp [countE]
    · intro b
      simp [tc_on_alarm, countE]
  · rw [if_neg hcond]
    have hpos : e ≠ EWOULDBLOCK ∧ e ≠ EINPROGRESS := by tauto
    refine ⟨[Event.fdCreate f, Event.fdOrphan f, Event.invokeCb none],
        ?_, ?_, rfl⟩
    · simp [grpc_tcp_client_connect, prepare_socket, hpos]
    · simp [countE]

/-- Witness for C9: connect reports EINPROGRESS on descriptor 8. -/
theorem c9_would_block_vs_terminal_witness :
    (ConnectEnv.mk (some 8) true (some EINPROGRESS) "d").rawFd = some 8 ∧
    (ConnectEnv.mk (some 8) true (some EINPROGRESS) "d").sockOptsOk
      = true ∧
    (ConnectEnv.mk (some 8) true (some EINPROGRESS) "d").connectErrno
      = some EINPROGRESS ∧
    (if EINPROGRESS = EWOULDBLOCK ∨ EINPROGRESS = EINPROGRESS then
      ∃ ac evs, grpc_tcp_client_connect
          (ConnectEnv.mk (some 8) true (some EINPROGRESS) "d") 5 =
          (some ac, evs) ∧
        ac.refs = 2 ∧ ac.fd = some 8 ∧ ac.interested_parties = 5 ∧
        countE (Event.pollsetAddFd 8) evs = 1 ∧
        countE Event.allocRecord evs = 1 ∧
        countE Event.alarmInit evs = 1 ∧
        countE (Event.notifyOnWrite 8) evs = 1 ∧
        cbArgs evs = [] ∧
        (∀ b, countE (Event.fdShutdown 8) (tc_on_alarm ac b).2 = 1)
    else
      ∃ evs, grpc_tcp_client_connect
          (ConnectEnv.mk (some 8) true (some EINPROGRESS) "d") 5 =
          (none, evs) ∧
        countE (Event.fdOrphan 8) evs = 1 ∧
        cbArgs evs = [none]) :=
  ⟨rfl, rfl, rfl,
   c9_would_block_vs_terminal
     (ConnectEnv.mk (some 8) true (some EINPROGRESS) "d") 5 8 EINPROGRESS
     rfl rfl rfl⟩

/-- C3 counterexample: when socket creation fails,
`grpc_tcp_client_connect` invokes the completion callback synchronously,
from within the very call that registered it, refuting the claim that
for every input the callback is never invoked re-entrantly. -/
theorem c3_counterexample_sync_invocation :
    cbCount (grpc_tcp_client_connect
      (ConnectEnv.mk none true none "ipv4:127.0.0.1:80") 0).2 = 1 := by
  decide

/-- C3 (amended): the completion callback is invoked from within the
`grpc_tcp_client_connect` call exactly once on every input that does not
take the asynchronous would-block path (socket-preparation failure,
synchronous connect success, or a terminal connect errno), and is not
invoked within the call exactly when the call takes the would-block path
and hands the attempt record to the timer and write paths. -/
theorem c3_amended_sync_exactly_off_async_path (env : ConnectEnv)
    (ip : Nat) :
    cbCount (grpc_tcp_client_connect env ip).2 =
      (if asyncPath env then 0 else 1) ∧
    (grpc_tcp_client_connect env ip).1.isSome = asyncPath env := by
  obtain ⟨rf, so, ce, astr⟩ := env
  cases rf with
  | none => exact ⟨rfl, rfl⟩
  | some f =>
      cases so with
      | false => exact ⟨rfl, rfl⟩
      | true =>
          cases ce with
          | none => exact ⟨rfl, rfl⟩
          | some e =>
              by_cases hcond : e = EWOULDBLOCK ∨ e = EINPROGRESS
              · have hneg : ¬(e ≠ EWOULDBLOCK ∧ e ≠ EINPROGRESS) := by
                  tauto
                constructor <;>
                  simp [grpc_tcp_client_connect, prepare_socket, asyncPath,
                    hneg, hcond, cbCount, Event.isCb]
              · have hpos : e ≠ EWOULDBLOCK ∧ e ≠ EINPROGRESS := by tauto
                constructor <;>
                  simp [grpc_tcp_client_connect, prepare_socket, asyncPath,
                    hcond, hpos, cbCount, Event.isCb]
